import Mathlib

/-!
Verification development for the orchestration layer of the PEPITA dose-response
pipeline (`pipeline.py`).  The definitions below are a shallow embedding of the
`main` function of `pipeline.py` and of its helper `_parse_results` environment:

* raw measurements are rationals; a missing measurement (Python/NumPy `NaN`)
  is modelled as `none : Option ℚ`;
* Python exceptions (`KeyError`, `IndexError`, `ValueError`, `NameError`) are
  modelled with an explicit error type `PyErr`; loops that Python runs without
  a bound are given explicit fuel, and exhaustion of every fuel models
  non-termination (`PyErr.diverge`);
* Python `dict`s keyed by cocktail are association lists with first-match
  lookup and in-place update of the first matching entry, matching insertion
  order semantics of `dict` and the object identity of the stored lists.

External collaborators (`analyze.main`, `util.Dose`/`Solution` parsing,
`dose_response.Model`, the synergy analyses) are parameters of the embedding:
the pipeline only observes their results.
-/

set_option autoImplicit false

namespace Pepita

/-- A parsed solution (one well's drug+dose composition).  The pipeline only
uses its stable string key `string` (the originating condition label), so the
embedding records exactly that. -/
structure Solution where
  string : String
deriving DecidableEq, Repr

/-- A cocktail: the tuple of drug names present in a solution, used as the
grouping key (`util.Cocktail`, compared by its `drugs` tuple). -/
structure Cocktail where
  drugs : List String
deriving DecidableEq, Repr

/-- Python exceptions and non-termination observable in `pipeline.main`. -/
inductive PyErr where
  | keyError
  | indexError
  | valueError
  | nameError
  | diverge
deriving DecidableEq, Repr

/-- `results`: mapping from condition-label string to the list of raw
measurements for that condition (`none` = NaN). -/
def Results : Type := List (String × List (Option ℚ))

/-- `drug_conditions`: the Condition Resolver's output, a mapping from
cocktail to the ordered list of its solutions (`_parse_results`). -/
def DC : Type := List (Cocktail × List Solution)

/-- First-match lookup in `drug_conditions` (Python `dict.__getitem__`,
minus the raising behaviour, which call sites model). -/
def dcLookup (dc : DC) (k : Cocktail) : Option (List Solution) :=
  match dc with
  | [] => none
  | (k2, v) :: rest => if k2 = k then some v else dcLookup rest k

/-- In-place replacement of the list object stored under key `k`
(Python's `list.insert` mutates the stored object; keys never change). -/
def dcUpdate (dc : DC) (k : Cocktail) (v : List Solution) : DC :=
  match dc with
  | [] => []
  | (k2, v2) :: rest => if k2 = k then (k2, v) :: rest else (k2, v2) :: dcUpdate rest k v

/-- Lookup of a condition label in `results` (Python `results[...]`). -/
def resLookup (res : Results) (k : String) : Option (List (Option ℚ)) :=
  match res with
  | [] => none
  | (k2, v) :: rest => if k2 = k then some v else resLookup rest k

/-! ### Cache Key/Store (pipeline.py lines 16-26) -/

/-- What the cache step does with `results`: load the cached file, or invoke
the analysis collaborator and write the cache. -/
inductive CacheAction where
  | loadFromCache
  | recomputeAndWrite
deriving DecidableEq, Repr

/-- The branch condition of pipeline.py line 19:
`if chartfile is None and debug == 0 and os.path.exists(hashfile)` load,
else recompute and cache. -/
def cacheAction (chartfile : Option String) (debug : ℤ) (cacheExists : Bool) :
    CacheAction :=
  if chartfile = none ∧ debug = 0 ∧ cacheExists = true then
    CacheAction.loadFromCache
  else
    CacheAction.recomputeAndWrite

/-- One run of the cache step.  `cached` is the current cache-file state
(`none` = no file); `analyzeResult` is what `analyze.main` would return for
these inputs.  Returns the `results` used by the rest of the run together
with the cache write performed (`none` = no write). -/
def cacheStep (chartfile : Option String) (debug : ℤ) (cached : Option Results)
    (analyzeResult : Results) : Results × Option Results :=
  match cacheAction chartfile debug cached.isSome with
  | CacheAction.loadFromCache => (cached.getD analyzeResult, none)
  | CacheAction.recomputeAndWrite => (analyzeResult, some analyzeResult)

/-! ### The cache file (C7)

The cache file is written with `json.dump` and read back with `json.load`,
code that is not part of this repository.

Modelled from the spec: "a flat, serializable mapping from condition-label
string to an ordered sequence of numbers, one file per derived cache key;
overwritten wholesale on every cache miss" — the file holds a JSON value; a
stored measurement is either a number or the NaN literal. -/
inductive JValue where
  | num (q : ℚ)
  | nanLit
  | arr (elems : List JValue)
  | obj (entries : List (String × JValue))

/-- Modelled from the spec: serialization of one measurement (`json.dump`
writes NaN for a missing value). -/
def encodeVal (v : Option ℚ) : JValue :=
  match v with
  | none => JValue.nanLit
  | some q => JValue.num q

/-- Modelled from the spec: serialization of `results` as a flat
label-to-list-of-numbers JSON object (`json.dump(results, f)`). -/
def encodeResults (r : Results) : JValue :=
  JValue.obj (r.map (fun p => (p.1, JValue.arr (p.2.map encodeVal))))

/-- Modelled from the spec: deserialization of one measurement. -/
def decodeVal (j : JValue) : Option (Option ℚ) :=
  match j with
  | JValue.nanLit => some none
  | JValue.num q => some (some q)
  | _ => none

/-- Modelled from the spec: deserialization of a list of measurements. -/
def decodeVals (js : List JValue) : Option (List (Option ℚ)) :=
  match js with
  | [] => some []
  | j :: rest =>
    match decodeVal j, decodeVals rest with
    | some v, some vs => some (v :: vs)
    | _, _ => none

/-- Modelled from the spec: deserialization of the object entries. -/
def decodeEntries (es : List (String × JValue)) : Option Results :=
  match es with
  | [] => some []
  | (k, JValue.arr js) :: rest =>
    match decodeVals js, decodeEntries rest with
    | some vs, some r => some ((k, vs) :: r)
    | _, _ => none
  | _ => none

/-- Modelled from the spec: deserialization of the cache file
(`json.load(f)`). -/
def decodeResults (j : JValue) : Option Results :=
  match j with
  | JValue.obj es => decodeEntries es
  | _ => none

/-- One pipeline run's interaction with the cache file, at the file level:
`fileState` is the cache file contents (`none` = file absent).  Returns the
`results` obtained (`none` only if an existing file fails to decode) and the
file state after the run. -/
def runCache (chartfile : Option String) (debug : ℤ) (fileState : Option JValue)
    (analyzeResult : Results) : Option Results × Option JValue :=
  match cacheAction chartfile debug fileState.isSome with
  | CacheAction.loadFromCache =>
    (decodeResults (fileState.getD (JValue.obj [])), fileState)
  | CacheAction.recomputeAndWrite =>
    (some analyzeResult, some (encodeResults analyzeResult))

/-! ### Control Normalizer (pipeline.py lines 35-49) -/

/-- The non-missing (non-NaN) entries of a measurement list. -/
def nonMissing (xs : List (Option ℚ)) : List ℚ := xs.filterMap id

/-- `np.nanmean`: mean of the non-NaN entries; NaN (`none`) when there are
none (the RuntimeWarning is suppressed by the `catch_warnings` block). -/
def nanmean (xs : List (Option ℚ)) : Option ℚ :=
  if nonMissing xs = [] then none
  else some ((nonMissing xs).sum / ((nonMissing xs).length : ℚ))

/-- `np.nanmin`: minimum of the non-NaN entries; raises `ValueError` on an
empty list, and yields NaN (with a warning) when all entries are NaN. -/
def nanmin (xs : List (Option ℚ)) : Except PyErr (Option ℚ) :=
  if xs = [] then Except.error PyErr.valueError
  else Except.ok (nonMissing xs).min?

/-- `[solution for drug in drugs for solution in drug_conditions[drug]]`:
collect every solution of the given cocktails, raising `KeyError` when a
cocktail is not a key of `drug_conditions` (pipeline.py lines 37-38). -/
def gatherSolutions (dc : DC) : List Cocktail → Except PyErr (List Solution)
  | [] => Except.ok []
  | d :: rest =>
    match dcLookup dc d with
    | none => Except.error PyErr.keyError
    | some sols =>
      match gatherSolutions dc rest with
      | Except.ok more => Except.ok (sols ++ more)
      | Except.error e => Except.error e

/-- `[result for solution in solutions for result in results[solution.string]]`
(pipeline.py lines 39-40). -/
def gatherScores (res : Results) : List Solution → Except PyErr (List (Option ℚ))
  | [] => Except.ok []
  | s :: rest =>
    match resLookup res s.string with
    | none => Except.error PyErr.keyError
    | some vals =>
      match gatherScores res rest with
      | Except.ok more => Except.ok (vals ++ more)
      | Except.error e => Except.error e

/-- `[value for condition, values in results.items() for value in values]`
(pipeline.py line 49). -/
def allValues (res : Results) : List (Option ℚ) :=
  match res with
  | [] => []
  | (_, vals) :: rest => vals ++ allValues rest

/-- Outcome of the positive-control step: the normalization ceiling
(`none` = NaN) and whether the no-positive-control warning was printed. -/
structure PCOutcome where
  value : Option ℚ
  warned : Bool
deriving DecidableEq, Repr

/-- The positive-control computation of pipeline.py lines 35-49.
`pcDrugs` is `positive_control_drugs`, the cocktails the external `util.Dose`
parser derives from `plate_positive_control` (line 35-36). -/
def positiveControl (dc : DC) (res : Results) (pcDrugs : List Cocktail) :
    Except PyErr PCOutcome :=
  match gatherSolutions dc pcDrugs with
  | Except.error e => Except.error e
  | Except.ok sols =>
    match gatherScores res sols with
    | Except.error e => Except.error e
    | Except.ok scores =>
      match nanmean scores with
      | some v => Except.ok ⟨some v, false⟩
      | none =>
        match nanmin (allValues res) with
        | Except.error e => Except.error e
        | Except.ok m => Except.ok ⟨m, true⟩

/-! ### Per-cocktail dose series (pipeline.py lines 53-60)

The model-building loop runs, for the cocktail under construction,

    for control_drug in control_drugs:
        for solution in drug_conditions[control_drug]:
            conditions.insert(0, solution)

where `conditions` is the very list object stored in `drug_conditions` under
the current cocktail.  A Python `for` over a list is index-based iteration
over the live object, so the embedding steps an explicit index and re-reads
the stored lists at every step; when the iterated list and the mutated list
are the same object (`control_drug` equals the current cocktail) the loop
never ends, which the fuel models. -/

/-- One `for solution in drug_conditions[src]: conditions.insert(0, solution)`
loop, iterating index `i` over the live list stored under `src` while
prepending each visited element to the list stored under `target`. -/
def insertLoop (fuel : ℕ) (dc : DC) (target src : Cocktail) (i : ℕ) :
    Except PyErr DC :=
  match fuel with
  | 0 => Except.error PyErr.diverge
  | fuel + 1 =>
    match dcLookup dc src with
    | none => Except.error PyErr.keyError
    | some l =>
      if h : i < l.length then
        match dcLookup dc target with
        | none => Except.error PyErr.keyError
        | some t =>
          insertLoop fuel (dcUpdate dc target (l.get ⟨i, h⟩ :: t)) target src (i + 1)
      else Except.ok dc

/-- The outer `for control_drug in control_drugs` loop (pipeline.py
lines 58-60). -/
def prependControls (fuel : ℕ) (dc : DC) (controlDrugs : List Cocktail)
    (target : Cocktail) : Except PyErr DC :=
  match controlDrugs with
  | [] => Except.ok dc
  | c :: rest =>
    match insertLoop fuel dc target c 0 with
    | Except.ok dc2 => prependControls fuel dc2 rest target
    | Except.error e => Except.error e

/-- The dose series handed to `dose_response.Model` for `target`
(pipeline.py line 67-68): the contents of `conditions` after the control
prepend loops. -/
def buildDoseSeries (fuel : ℕ) (dc : DC) (controlDrugs : List Cocktail)
    (target : Cocktail) : Except PyErr (List Solution) :=
  match prependControls fuel dc controlDrugs target with
  | Except.ok dc2 =>
    match dcLookup dc2 target with
    | some l => Except.ok l
    | none => Except.error PyErr.keyError
  | Except.error e => Except.error e

/-- Statement helper: the concatenation, in the order the control drugs were
specified, of each control cocktail's stored solutions in their original
order.  This is the order §4.4 of the spec prescribes for the prepended
block. -/
def controlSolutions (dc : DC) (controls : List Cocktail) : List Solution :=
  match controls with
  | [] => []
  | c :: rest => (dcLookup dc c).getD [] ++ controlSolutions dc rest

/-! ### Models and the EC Reporter (pipeline.py lines 53-55 and 75-80) -/

/-- The facets of the external `dose_response.Model` that `pipeline.main`
observes: its cocktail, its combination flag (`model.combo`), the EC query
(`model.effective_concentration`, `none` = NaN), the display label
(`model.get_condition()`) and the unit string (`model.get_x_units()`). -/
structure Model where
  cocktail : Cocktail
  combo : Bool
  effectiveConcentration : ℚ → Option ℚ
  condition : String
  xUnits : String

/-- One printed EC line (pipeline.py lines 79-80): the condition label, the
EC percentage, the reported concentration and the unit string.  The
two-decimal rendering of the concentration is string formatting, external to
the orchestration layer. -/
structure ECLine where
  condition : String
  ecValue : ℕ
  concentration : ℚ
  xUnits : String
deriving DecidableEq, Repr

/-- The inner `for ec_value in (50, 75, 90)` loop of pipeline.py lines 76-80:
query the model, and print one line unless the result is NaN. -/
def ecLinesFrom (m : Model) : List ℕ → List ECLine
  | [] => []
  | ec :: rest =>
    match m.effectiveConcentration ((ec : ℚ) / 100) with
    | none => ecLinesFrom m rest
    | some c => ⟨m.condition, ec, c, m.xUnits⟩ :: ecLinesFrom m rest

/-- The lines one model contributes: fractions 50, 75, 90 in that order. -/
def ecLines (m : Model) : List ECLine := ecLinesFrom m [50, 75, 90]

/-- The whole report: outer loop over `models.values()` in builder order
(pipeline.py line 75). -/
def ecReport (models : List Model) : List ECLine :=
  match models with
  | [] => []
  | m :: rest => ecLines m ++ ecReport rest

/-- The cocktails the model-building loop builds a model for: every key of
`drug_conditions` except the literal Control cocktail, in insertion order
(pipeline.py lines 53-55). -/
def modeledCocktails (dc : DC) : List Cocktail :=
  match dc with
  | [] => []
  | (c, _) :: rest =>
    if c.drugs = ["Control"] then modeledCocktails rest
    else c :: modeledCocktails rest

/-! ### Combination Analyzer (pipeline.py lines 84-123) -/

/-- The `models` dict: cocktail-keyed mapping to models, insertion ordered. -/
def ModelMap : Type := List (Cocktail × Model)

/-- First-match lookup in the `models` dict. -/
def mLookup (models : ModelMap) (k : Cocktail) : Option Model :=
  match models with
  | [] => none
  | (k2, m) :: rest => if k2 = k then some m else mLookup rest k

/-- `[model for model in models.values() if model.combo]`
(pipeline.py line 84). -/
def combosOf (models : List Model) : List Model :=
  match models with
  | [] => []
  | m :: rest => if m.combo then m :: combosOf rest else combosOf rest

/-- The mutable state of the diamond loop: the running axis maxima and the
loop-leaked `plot_filename` variable (`none` = still unbound). -/
structure DiamondState where
  totalMaxX : ℚ
  totalMaxY : ℚ
  plotFilename : Option String
deriving DecidableEq, Repr

/-- The `plt.savefig` performed at pipeline.py line 113, with the axis
clamping of lines 111-112. -/
structure SavedFigure where
  filename : String
  xRight : ℚ
  yTop : ℚ
deriving DecidableEq, Repr

/-- The diamond loop of pipeline.py lines 96-108.  `ad` is the external
`dose_response.analyze_diamond`, returning `(plot_filename, max_x, max_y)`;
the chart call draws into the shared figure and returns nothing. -/
def diamondLoop (models : ModelMap) (ad : Model → Model → Model → String × ℚ × ℚ) :
    List Model → DiamondState → Except PyErr DiamondState
  | [], st => Except.ok st
  | mc :: rest, st =>
    match mc.cocktail.drugs[0]? with
    | none => Except.error PyErr.indexError
    | some d0 =>
      match mLookup models ⟨[d0]⟩ with
      | none => diamondLoop models ad rest st
      | some ma =>
        match mc.cocktail.drugs[1]? with
        | none => Except.error PyErr.indexError
        | some d1 =>
          match mLookup models ⟨[d1]⟩ with
          | none => Except.error PyErr.keyError
          | some mb =>
            let r := ad ma mb mc
            diamondLoop models ad rest
              ⟨max st.totalMaxX r.2.1, max st.totalMaxY r.2.2, some r.1⟩

/-- Diamond mode end to end (pipeline.py lines 86-115): run the loop from
the floor state `(1, 1, unbound)`, then, when `models_combo` is nonempty,
clamp the axes and save to the leaked `plot_filename` (an unbound
`plot_filename` is a `NameError`).  Returns the saved figure, `none` when no
figure was saved. -/
def diamondMode (models : ModelMap) (ad : Model → Model → Model → String × ℚ × ℚ)
    (modelsCombo : List Model) : Except PyErr (Option SavedFigure) :=
  match diamondLoop models ad modelsCombo ⟨1, 1, none⟩ with
  | Except.error e => Except.error e
  | Except.ok st =>
    match modelsCombo with
    | [] => Except.ok none
    | _ :: _ =>
      match st.plotFilename with
      | none => Except.error PyErr.nameError
      | some pf => Except.ok (some ⟨pf, st.totalMaxX, st.totalMaxY⟩)

/-- The single call checkerboard mode makes to the external full-grid
analysis (pipeline.py lines 120-123). -/
structure CheckerboardCall where
  modelA : Model
  modelB : Model
  combos : List Model

/-- Checkerboard mode (pipeline.py lines 117-123): index the first combo
model (`models_combo[0]`, an `IndexError` on an empty list), look both
sub-cocktail models up (a `KeyError` when absent), and dispatch over all
combo models jointly. -/
def checkerboardMode (models : ModelMap) (modelsCombo : List Model) :
    Except PyErr CheckerboardCall :=
  match modelsCombo with
  | [] => Except.error PyErr.indexError
  | mc :: _ =>
    match mc.cocktail.drugs[0]? with
    | none => Except.error PyErr.indexError
    | some d0 =>
      match mLookup models ⟨[d0]⟩ with
      | none => Except.error PyErr.keyError
      | some ma =>
        match mc.cocktail.drugs[1]? with
        | none => Except.error PyErr.indexError
        | some d1 =>
          match mLookup models ⟨[d1]⟩ with
          | none => Except.error PyErr.keyError
          | some mb => Except.ok ⟨ma, mb, modelsCombo⟩

/-- The two mutually exclusive analyzer modes. -/
inductive ComboOutcome where
  | diamondFig (fig : Option SavedFigure)
  | checkerboardCall (call : CheckerboardCall)

/-- The mode dispatch of pipeline.py line 86 (`if not checkerboard`). -/
def analyzeCombinations (cb : Bool) (models : ModelMap)
    (ad : Model → Model → Model → String × ℚ × ℚ) : Except PyErr ComboOutcome :=
  let modelsCombo := combosOf (models.map Prod.snd)
  if !cb then
    match diamondMode models ad modelsCombo with
    | Except.ok fig => Except.ok (ComboOutcome.diamondFig fig)
    | Except.error e => Except.error e
  else
    match checkerboardMode models modelsCombo with
    | Except.ok call => Except.ok (ComboOutcome.checkerboardCall call)
    | Except.error e => Except.error e

/-- Statement helper for the diamond loop: the `(plot_filename, max_x, max_y)`
triples of the combos the loop actually processes (first sub-cocktail found;
error branches are irrelevant under a loop-succeeded hypothesis and return
`[]`). -/
def processedTriples (models : ModelMap)
    (ad : Model → Model → Model → String × ℚ × ℚ) :
    List Model → List (String × ℚ × ℚ)
  | [] => []
  | mc :: rest =>
    match mc.cocktail.drugs[0]? with
    | none => []
    | some d0 =>
      match mLookup models ⟨[d0]⟩ with
      | none => processedTriples models ad rest
      | some ma =>
        match mc.cocktail.drugs[1]? with
        | none => []
        | some d1 =>
          match mLookup models ⟨[d1]⟩ with
          | none => []
          | some mb => ad ma mb mc :: processedTriples models ad rest

/-- Statement helper: the value of the loop-leaked `plot_filename` variable
after the diamond loop, given the processed triples and the value before the
loop (`none` = unbound): each processed combo overwrites it. -/
def lastFile : List (String × ℚ × ℚ) → Option String → Option String
  | [], d => d
  | r :: rest, _ => lastFile rest (some r.1)

/-! ### Concrete example data used by witnesses and counterexamples -/

/-- Example single-drug cocktail A. -/
def exCA : Cocktail := ⟨["A"]⟩

/-- Example single-drug cocktail B. -/
def exCB : Cocktail := ⟨["B"]⟩

/-- Example combination cocktail A+B. -/
def exCAB : Cocktail := ⟨["A", "B"]⟩

/-- Example single-drug model for A. -/
def exMA : Model := ⟨exCA, false, fun _ => some 2, "A", "mM"⟩

/-- Example single-drug model for B. -/
def exMB : Model := ⟨exCB, false, fun _ => none, "B", "mM"⟩

/-- Example combination model for A+B. -/
def exMAB : Model := ⟨exCAB, true, fun _ => some 1, "A+B", "mM"⟩

/-- Example pairwise-synergy collaborator: always yields plot file `d.png`
with extents (3, 2). -/
def exAD : Model → Model → Model → String × ℚ × ℚ := fun _ _ _ => ("d.png", 3, 2)

theorem decodeVals_encode (vs : List (Option ℚ)) :
    decodeVals (vs.map encodeVal) = some vs := by
  induction vs with
  | nil => rfl
  | cons v rest ih =>
    cases v <;> simp [decodeVals, decodeVal, encodeVal, ih]

theorem decodeResults_encodeResults (r : Results) :
    decodeResults (encodeResults r) = some r := by
  unfold decodeResults encodeResults
  induction r with
  | nil => rfl
  | cons p rest ih =>
    obtain ⟨k, vs⟩ := p
    simp only [List.map_cons, decodeEntries, decodeVals_encode]
    simp only [decodeResults] at ih
    simp [ih]

theorem dcLookup_dcUpdate_self {dc : DC} {k : Cocktail} {l : List Solution}
    (h : dcLookup dc k = some l) (v : List Solution) :
    dcLookup (dcUpdate dc k v) k = some v := by
  induction dc with
  | nil => simp [dcLookup] at h
  | cons p rest ih =>
    obtain ⟨k2, v2⟩ := p
    by_cases hk : k2 = k
    · simp [dcLookup, dcUpdate, hk]
    · simp only [dcLookup, dcUpdate, if_neg hk] at h ⊢
      exact ih h

theorem dcLookup_dcUpdate_ne (dc : DC) {k k2 : Cocktail} (v : List Solution)
    (h : k ≠ k2) : dcLookup (dcUpdate dc k v) k2 = dcLookup dc k2 := by
  induction dc with
  | nil => rfl
  | cons p rest ih =>
    obtain ⟨k3, v3⟩ := p
    by_cases hk : k3 = k
    · subst hk
      simp [dcLookup, dcUpdate, if_neg h]
    · simp only [dcUpdate, if_neg hk, dcLookup]
      by_cases hk2 : k3 = k2 <;> simp [hk2, ih]

theorem dcUpdate_dcUpdate (dc : DC) (k : Cocktail) (v1 v2 : List Solution) :
    dcUpdate (dcUpdate dc k v1) k v2 = dcUpdate dc k v2 := by
  induction dc with
  | nil => rfl
  | cons p rest ih =>
    obtain ⟨k2, v3⟩ := p
    by_cases hk : k2 = k <;> simp [dcUpdate, hk, ih]

theorem dcUpdate_eq_self {dc : DC} {k : Cocktail} {l : List Solution}
    (h : dcLookup dc k = some l) : dcUpdate dc k l = dc := by
  induction dc with
  | nil => rfl
  | cons p rest ih =>
    obtain ⟨k2, v2⟩ := p
    by_cases hk : k2 = k
    · simp only [dcLookup, if_pos hk] at h
      injection h with h2
      simp [dcUpdate, hk, h2]
    · simp only [dcLookup, if_neg hk] at h
      simp [dcUpdate, hk, ih h]

theorem insertLoop_of_ne {target src : Cocktail} (hne : src ≠ target) :
    ∀ (fuel : ℕ) (dc : DC) (s t : List Solution) (i : ℕ),
      dcLookup dc src = some s → dcLookup dc target = some t →
      i ≤ s.length → s.length < fuel + i →
      insertLoop fuel dc target src i =
        Except.ok (dcUpdate dc target ((s.drop i).reverse ++ t)) := by
  intro fuel
  induction fuel with
  | zero =>
    intro dc s t i _ _ hi hfuel
    omega
  | succ f ih =>
    intro dc s t i hs ht hi hfuel
    rw [insertLoop, hs]
    dsimp only
    by_cases hlt : i < s.length
    · rw [dif_pos hlt, ht]
      dsimp only
      have hs2 : dcLookup (dcUpdate dc target (s.get ⟨i, hlt⟩ :: t)) src = some s := by
        rw [dcLookup_dcUpdate_ne dc _ (fun h => hne h.symm), hs]
      have ht2 : dcLookup (dcUpdate dc target (s.get ⟨i, hlt⟩ :: t)) target =
          some (s.get ⟨i, hlt⟩ :: t) := dcLookup_dcUpdate_self ht _
      rw [ih _ s _ (i + 1) hs2 ht2 hlt (by omega)]
      rw [dcUpdate_dcUpdate]
      have hdrop : s.drop i = s.get ⟨i, hlt⟩ :: s.drop (i + 1) := by
        rw [List.get_eq_getElem]
        exact List.drop_eq_getElem_cons hlt
      rw [hdrop, List.reverse_cons, List.append_assoc]
      rfl
    · rw [dif_neg hlt]
      have hi2 : i = s.length := by omega
      rw [hi2, List.drop_length]
      simp [dcUpdate_eq_self ht]

theorem insertLoop_self_diverges {c : Cocktail} :
    ∀ (fuel : ℕ) (dc : DC) (l : List Solution) (i : ℕ),
      dcLookup dc c = some l → i < l.length →
      insertLoop fuel dc c c i = Except.error PyErr.diverge := by
  intro fuel
  induction fuel with
  | zero => intro dc l i _ _; rfl
  | succ f ih =>
    intro dc l i h hi
    rw [insertLoop, h]
    dsimp only
    rw [dif_pos hi]
    exact ih _ (l.get ⟨i, hi⟩ :: l) (i + 1) (dcLookup_dcUpdate_self h _)
      (by simpa using Nat.succ_lt_succ hi)

theorem controlSolutions_congr {dc dc2 : DC} :
    ∀ (controls : List Cocktail),
      (∀ c ∈ controls, dcLookup dc2 c = dcLookup dc c) →
      controlSolutions dc2 controls = controlSolutions dc controls := by
  intro controls
  induction controls with
  | nil => intro _; rfl
  | cons c rest ih =>
    intro h
    rw [controlSolutions, controlSolutions, h c (by simp),
      ih (fun c2 hc2 => h c2 (by simp [hc2]))]

theorem prependControls_char {target : Cocktail} :
    ∀ (controls : List Cocktail) (fuel : ℕ) (dc : DC) (t : List Solution),
      dcLookup dc target = some t →
      (∀ c ∈ controls, c ≠ target ∧ ∃ s, dcLookup dc c = some s ∧ s.length < fuel) →
      prependControls fuel dc controls target =
        Except.ok (dcUpdate dc target ((controlSolutions dc controls).reverse ++ t)) := by
  intro controls
  induction controls with
  | nil =>
    intro fuel dc t ht _
    simp [prependControls, controlSolutions, dcUpdate_eq_self ht]
  | cons c rest ih =>
    intro fuel dc t ht hc
    obtain ⟨hcne, s, hcs, hslen⟩ := hc c (by simp)
    rw [prependControls,
      insertLoop_of_ne hcne fuel dc s t 0 hcs ht (Nat.zero_le _) (by omega)]
    simp only [List.drop_zero]
    set dc2 := dcUpdate dc target (s.reverse ++ t) with hdc2
    have ht2 : dcLookup dc2 target = some (s.reverse ++ t) :=
      dcLookup_dcUpdate_self ht _
    have hrest : ∀ c2 ∈ rest, dcLookup dc2 c2 = dcLookup dc c2 := by
      intro c2 hc2
      exact dcLookup_dcUpdate_ne dc _ (fun h => ((hc c2 (by simp [hc2])).1 h.symm))
    rw [ih fuel dc2 (s.reverse ++ t) ht2 ?hrest2]
    case hrest2 =>
      intro c2 hc2
      obtain ⟨h1, s2, h2, h3⟩ := hc c2 (by simp [hc2])
      exact ⟨h1, s2, by rw [hrest c2 hc2]; exact h2, h3⟩
    rw [controlSolutions_congr rest hrest, hdc2, dcUpdate_dcUpdate]
    rw [controlSolutions, hcs]
    simp [List.reverse_append]

theorem buildDoseSeries_char (fuel : ℕ) (dc : DC) (controls : List Cocktail)
    (target : Cocktail) (own : List Solution)
    (htarget : dcLookup dc target = some own)
    (hc : ∀ c ∈ controls, c ≠ target ∧ ∃ s, dcLookup dc c = some s ∧ s.length < fuel) :
    buildDoseSeries fuel dc controls target =
      Except.ok ((controlSolutions dc controls).reverse ++ own) := by
  rw [buildDoseSeries, prependControls_char controls fuel dc own htarget hc]
  dsimp only
  rw [dcLookup_dcUpdate_self htarget]

theorem gatherSolutions_err {dc : DC} :
    ∀ (drugs : List Cocktail), (∃ d ∈ drugs, dcLookup dc d = none) →
      gatherSolutions dc drugs = Except.error PyErr.keyError := by
  intro drugs
  induction drugs with
  | nil =>
    rintro ⟨d, hd, _⟩
    exact absurd hd (by simp)
  | cons d rest ih =>
    rintro ⟨d2, hd2, hnone⟩
    rcases List.mem_cons.mp hd2 with h | h
    · subst h
      rw [gatherSolutions, hnone]
    · rw [gatherSolutions]
      cases hl : dcLookup dc d with
      | none => rfl
      | some sols =>
        dsimp only
        rw [ih ⟨d2, h, hnone⟩]

theorem lastFile_eq_getLast? :
    ∀ (ts : List (String × ℚ × ℚ)) (d : Option String),
      lastFile ts d = (match ts.getLast? with
        | some r => some r.1
        | none => d) := by
  intro ts
  induction ts with
  | nil => intro d; rfl
  | cons r rest ih =>
    intro d
    rw [lastFile, ih (some r.1)]
    cases rest with
    | nil => rfl
    | cons r2 rest2 =>
      rw [List.getLast?_cons_cons]
      cases h : (r2 :: rest2).getLast? with
      | none => exact absurd (List.getLast?_eq_none_iff.mp h) (by simp)
      | some r3 => rfl

theorem diamondLoop_char (models : ModelMap)
    (ad : Model → Model → Model → String × ℚ × ℚ) :
    ∀ (combos : List Model) (st st2 : DiamondState),
      diamondLoop models ad combos st = Except.ok st2 →
      st2.totalMaxX = (processedTriples models ad combos).foldl
          (fun a r => max a r.2.1) st.totalMaxX ∧
      st2.totalMaxY = (processedTriples models ad combos).foldl
          (fun a r => max a r.2.2) st.totalMaxY ∧
      st2.plotFilename = lastFile (processedTriples models ad combos) st.plotFilename := by
  intro combos
  induction combos with
  | nil =>
    intro st st2 h
    rw [diamondLoop] at h
    injection h with h
    subst h
    exact ⟨rfl, rfl, rfl⟩
  | cons mc rest ih =>
    intro st st2 h
    rw [diamondLoop] at h
    rw [processedTriples]
    cases hd0 : mc.cocktail.drugs[0]? with
    | none =>
      rw [hd0] at h
      dsimp only at h
      exact Except.noConfusion h
    | some d0 =>
      rw [hd0] at h
      dsimp only at h ⊢
      cases hma : mLookup models ⟨[d0]⟩ with
      | none =>
        rw [hma] at h
        dsimp only at h ⊢
        exact ih st st2 h
      | some ma =>
        rw [hma] at h
        dsimp only at h ⊢
        cases hd1 : mc.cocktail.drugs[1]? with
        | none =>
          rw [hd1] at h
          dsimp only at h
          exact Except.noConfusion h
        | some d1 =>
          rw [hd1] at h
          dsimp only at h ⊢
          cases hmb : mLookup models ⟨[d1]⟩ with
          | none =>
            rw [hmb] at h
            dsimp only at h
            exact Except.noConfusion h
          | some mb =>
            rw [hmb] at h
            dsimp only at h ⊢
            obtain ⟨hx, hy, hpf⟩ := ih _ st2 h
            refine ⟨?_, ?_, ?_⟩
            · rw [List.foldl_cons]
              exact hx
            · rw [List.foldl_cons]
              exact hy
            · rw [lastFile]
              exact hpf

/-! ### Claim theorems -/

/-- Claim C1, counterexample: a combination model whose second constituent
single-drug cocktail has no model is not skipped — the `models[subcocktail_b]`
lookup raises a `KeyError`, so the combination analyzer aborts instead of
contributing no plot.  Here A+B is a combo, A has a model, B has none. -/
theorem pipeline_c1_counterexample :
    mLookup [(exCA, exMA), (exCAB, exMAB)] exCB = none ∧
    analyzeCombinations false [(exCA, exMA), (exCAB, exMAB)] exAD =
      Except.error PyErr.keyError :=
  ⟨rfl, rfl⟩

/-- Claim C1 (corrected): in diamond mode a combination is skipped (no plot
contribution, no error) exactly when its FIRST constituent single-drug
cocktail has no model; when the first has a model and the second does not,
the `models[subcocktail_b]` lookup raises a `KeyError`. -/
theorem pipeline_c1_amended (models : ModelMap)
    (ad : Model → Model → Model → String × ℚ × ℚ) (mc : Model)
    (rest : List Model) (st : DiamondState) (d0 d1 : String)
    (hd : mc.cocktail.drugs = [d0, d1]) :
    (mLookup models ⟨[d0]⟩ = none →
      diamondLoop models ad (mc :: rest) st = diamondLoop models ad rest st) ∧
    (∀ ma, mLookup models ⟨[d0]⟩ = some ma → mLookup models ⟨[d1]⟩ = none →
      diamondLoop models ad (mc :: rest) st = Except.error PyErr.keyError) := by
  constructor
  · intro h0
    rw [diamondLoop, hd]
    simp only [List.getElem?_cons_zero]
    rw [h0]
  · intro ma h0 h1
    rw [diamondLoop, hd]
    simp only [List.getElem?_cons_zero, List.getElem?_cons_succ]
    rw [h0]
    dsimp only
    rw [h1]

/-- Claim C1 witness: with B's model absent a combo with first drug B is
skipped; with A present and B absent the loop raises a `KeyError`. -/
theorem pipeline_c1_witness :
    diamondLoop [(exCB, exMB)] exAD [exMAB] ⟨1, 1, none⟩ =
        diamondLoop [(exCB, exMB)] exAD [] ⟨1, 1, none⟩ ∧
    diamondLoop [(exCA, exMA), (exCAB, exMAB)] exAD [exMAB] ⟨1, 1, none⟩ =
      Except.error PyErr.keyError := by
  constructor
  · exact (pipeline_c1_amended [(exCB, exMB)] exAD exMAB [] ⟨1, 1, none⟩
      "A" "B" rfl).1 rfl
  · exact (pipeline_c1_amended [(exCA, exMA), (exCAB, exMAB)] exAD exMAB []
      ⟨1, 1, none⟩ "A" "B" rfl).2 exMA rfl rfl

/-- Claim C2 (confirmed): in diamond mode the running maxima start at 1 and
accumulate over the processed combos; with no combination models at all the
mode yields no figure and no error; when the loop succeeds and at least one
combo was processed, the figure is saved to the last-produced plot's
filename with the axes clamped to the accumulated maxima. -/
theorem pipeline_c2 (models : ModelMap)
    (ad : Model → Model → Model → String × ℚ × ℚ) :
    diamondMode models ad [] = Except.ok none ∧
    (∀ combos st2,
      diamondLoop models ad combos ⟨1, 1, none⟩ = Except.ok st2 →
      processedTriples models ad combos ≠ [] →
      ∃ last, (processedTriples models ad combos).getLast? = some last ∧
        diamondMode models ad combos = Except.ok (some
          ⟨last.1,
           (processedTriples models ad combos).foldl (fun a r => max a r.2.1) 1,
           (processedTriples models ad combos).foldl (fun a r => max a r.2.2) 1⟩)) := by
  constructor
  · rfl
  · intro combos st2 hrun hne
    obtain ⟨hx, hy, hpf⟩ := diamondLoop_char models ad combos _ st2 hrun
    obtain ⟨last, hlast⟩ := Option.ne_none_iff_exists'.mp
      (fun hnone => hne (List.getLast?_eq_none_iff.mp hnone))
    refine ⟨last, hlast, ?_⟩
    have hpf2 : st2.plotFilename = some last.1 := by
      rw [hpf, lastFile_eq_getLast?, hlast]
    cases combos with
    | nil => exact absurd rfl hne
    | cons c0 crest =>
      rw [diamondMode, hrun]
      dsimp only
      rw [hpf2]
      dsimp only
      rw [hx, hy]

/-- Claim C2 witness: a processed combo A+B with both single models present
saves the figure at the collaborator's plot file with clamped axes; an empty
combo list yields no figure and no error. -/
theorem pipeline_c2_witness :
    diamondMode [(exCA, exMA), (exCB, exMB), (exCAB, exMAB)] exAD [] =
        Except.ok none ∧
    diamondMode [(exCA, exMA), (exCB, exMB), (exCAB, exMAB)] exAD [exMAB] =
      Except.ok (some ⟨"d.png", 3, 2⟩) := by
  refine ⟨(pipeline_c2 [(exCA, exMA), (exCB, exMB), (exCAB, exMAB)] exAD).1, ?_⟩
  obtain ⟨last, hlast, h⟩ :=
    (pipeline_c2 [(exCA, exMA), (exCB, exMB), (exCAB, exMAB)] exAD).2
      [exMAB] ⟨3, 2, some "d.png"⟩ rfl (by decide)
  rw [h]
  have hcomp : (processedTriples [(exCA, exMA), (exCB, exMB), (exCAB, exMAB)]
      exAD [exMAB]).getLast? = some ("d.png", 3, 2) := rfl
  rw [hcomp] at hlast
  injection hlast with hlast
  rw [← hlast]
  rfl

/-- Claim C3, counterexample: with one designated control drug B holding two
solutions, in their original order b1, b2, and a modeled cocktail A with
solution a1, the dose series passed to the modeling collaborator is
[b2, b1, a1] — the control's solutions are prepended in reverse — not the
spec's [b1, b2, a1]. -/
theorem pipeline_c3_counterexample :
    buildDoseSeries 10
        [(exCB, [Solution.mk "B 1mM", Solution.mk "B 2mM"]),
         (exCA, [Solution.mk "A 1mM"])] [exCB] exCA =
      Except.ok [Solution.mk "B 2mM", Solution.mk "B 1mM", Solution.mk "A 1mM"] ∧
    controlSolutions
        [(exCB, [Solution.mk "B 1mM", Solution.mk "B 2mM"]),
         (exCA, [Solution.mk "A 1mM"])] [exCB] ++ [Solution.mk "A 1mM"] =
      [Solution.mk "B 1mM", Solution.mk "B 2mM", Solution.mk "A 1mM"] ∧
    ([Solution.mk "B 2mM", Solution.mk "B 1mM", Solution.mk "A 1mM"] :
        List Solution) ≠
      [Solution.mk "B 1mM", Solution.mk "B 2mM", Solution.mk "A 1mM"] :=
  ⟨rfl, rfl, by decide⟩

/-- Claim C3 (corrected): for a modeled cocktail whose key differs from every
designated control cocktail, the dose series passed to the modeling
collaborator is the REVERSE of the concatenation of the controls' solutions
(controls in the order specified, each control's solutions in original
order), followed by the cocktail's own solutions in their original order. -/
theorem pipeline_c3_amended (fuel : ℕ) (dc : DC) (controls : List Cocktail)
    (target : Cocktail) (own : List Solution)
    (htarget : dcLookup dc target = some own)
    (hc : ∀ c ∈ controls, c ≠ target ∧ ∃ s, dcLookup dc c = some s ∧ s.length < fuel) :
    buildDoseSeries fuel dc controls target =
      Except.ok ((controlSolutions dc controls).reverse ++ own) :=
  buildDoseSeries_char fuel dc controls target own htarget hc

/-- Claim C3 witness: control B with one solution prepended to cocktail A. -/
theorem pipeline_c3_witness :
    buildDoseSeries 5
        [(exCB, [Solution.mk "B 1mM"]), (exCA, [Solution.mk "A 1mM"])]
        [exCB] exCA =
      Except.ok [Solution.mk "B 1mM", Solution.mk "A 1mM"] := by
  have hc : ∀ c ∈ [exCB], c ≠ exCA ∧ ∃ s,
      dcLookup [(exCB, [Solution.mk "B 1mM"]), (exCA, [Solution.mk "A 1mM"])] c =
        some s ∧ s.length < 5 := by
    intro c hcm
    rw [List.mem_singleton] at hcm
    subst hcm
    exact ⟨by decide, [Solution.mk "B 1mM"], rfl, by decide⟩
  exact (pipeline_c3_amended 5
    [(exCB, [Solution.mk "B 1mM"]), (exCA, [Solution.mk "A 1mM"])]
    [exCB] exCA [Solution.mk "A 1mM"] rfl hc).trans rfl

/-- Claim C4, counterexample: a positive-control label whose drug matches no
condition does not fall back to the minimum — `drug_conditions[drug]` raises
a `KeyError` and the run aborts, with no warning. -/
theorem pipeline_c4_counterexample :
    positiveControl [(exCA, [Solution.mk "A 1mM"])] [("A 1mM", [some 5])]
      [Cocktail.mk ["P"]] = Except.error PyErr.keyError :=
  rfl

/-- Claim C4 (corrected): when every positive-control drug is a key of the
resolved conditions (in particular when the positive-control list is empty)
and the gathered positive-control measurements have zero non-missing
entries, the positive-control value is the minimum non-missing measurement
across all conditions, the warning is emitted and the run does not abort;
when some positive-control drug matches no condition at all, the run aborts
with a `KeyError`. -/
theorem pipeline_c4_amended (dc : DC) (res : Results) (pcDrugs : List Cocktail) :
    (∀ sols scores,
      gatherSolutions dc pcDrugs = Except.ok sols →
      gatherScores res sols = Except.ok scores →
      nonMissing scores = [] →
      allValues res ≠ [] →
      positiveControl dc res pcDrugs =
        Except.ok ⟨(nonMissing (allValues res)).min?, true⟩) ∧
    ((∃ d ∈ pcDrugs, dcLookup dc d = none) →
      positiveControl dc res pcDrugs = Except.error PyErr.keyError) := by
  constructor
  · intro sols scores hs hsc hempty hres
    rw [positiveControl, hs]
    dsimp only
    rw [hsc]
    dsimp only
    rw [nanmean, if_pos hempty]
    dsimp only
    rw [nanmin, if_neg hres]
  · intro hex
    rw [positiveControl, gatherSolutions_err pcDrugs hex]

/-- Claim C4 witness: an all-NaN positive control falls back to the minimum
of the non-missing measurements (4) with the warning flag set; a
positive-control drug P with no matching condition aborts the run. -/
theorem pipeline_c4_witness :
    positiveControl [(exCA, [Solution.mk "A 1mM"])]
        [("A 1mM", [none]), ("C", [some 6, some 4])] [exCA] =
      Except.ok ⟨some 4, true⟩ ∧
    positiveControl [(exCA, [Solution.mk "A 1mM"])]
        [("A 1mM", [none]), ("C", [some 6, some 4])] [Cocktail.mk ["P"]] =
      Except.error PyErr.keyError := by
  constructor
  · exact ((pipeline_c4_amended [(exCA, [Solution.mk "A 1mM"])]
      [("A 1mM", [none]), ("C", [some 6, some 4])] [exCA]).1
      [Solution.mk "A 1mM"] [none] rfl rfl rfl (by decide)).trans rfl
  · exact (pipeline_c4_amended [(exCA, [Solution.mk "A 1mM"])]
      [("A 1mM", [none]), ("C", [some 6, some 4])] [Cocktail.mk ["P"]]).2
      ⟨Cocktail.mk ["P"], List.mem_singleton.mpr rfl, rfl⟩

/-- Claim C5 (confirmed): with at least one non-missing positive-control
measurement, the positive-control value is the arithmetic mean of exactly
the non-missing positive-control measurements — missing entries are
excluded from both the sum and the count, not treated as zero — and no
warning is emitted. -/
theorem pipeline_c5 (dc : DC) (res : Results) (pcDrugs : List Cocktail)
    (sols : List Solution) (scores : List (Option ℚ))
    (hs : gatherSolutions dc pcDrugs = Except.ok sols)
    (hsc : gatherScores res sols = Except.ok scores)
    (hne : nonMissing scores ≠ []) :
    positiveControl dc res pcDrugs =
      Except.ok ⟨some ((nonMissing scores).sum / ((nonMissing scores).length : ℚ)),
        false⟩ := by
  rw [positiveControl, hs]
  dsimp only
  rw [hsc]
  dsimp only
  rw [nanmean, if_neg hne]

/-- Claim C5 witness: measurements [50, NaN, 52] give mean 51 (the NaN is
dropped from the count), and no warning. -/
theorem pipeline_c5_witness :
    positiveControl [(exCA, [Solution.mk "A 1mM"])]
        [("A 1mM", [some 50, none, some 52])] [exCA] =
      Except.ok ⟨some 51, false⟩ := by
  rw [pipeline_c5 [(exCA, [Solution.mk "A 1mM"])]
    [("A 1mM", [some 50, none, some 52])] [exCA]
    [Solution.mk "A 1mM"] [some 50, none, some 52] rfl rfl (by decide)]
  have hnm : nonMissing [(some 50 : Option ℚ), none, some 52] = [50, 52] := by
    decide
  rw [hnm]
  norm_num

/-- Claim C6 (confirmed): the analysis collaborator is re-invoked and the
cache rewritten exactly when a chart override is requested, or debug is
non-zero, or no cache file exists; otherwise the cached results are used
verbatim and nothing is written. -/
theorem pipeline_c6 (chartfile : Option String) (debug : ℤ)
    (cached : Option Results) (r : Results) :
    (cacheAction chartfile debug cached.isSome = CacheAction.recomputeAndWrite ↔
      (chartfile ≠ none ∨ debug ≠ 0 ∨ cached = none)) ∧
    ((chartfile ≠ none ∨ debug ≠ 0 ∨ cached = none) →
      cacheStep chartfile debug cached r = (r, some r)) ∧
    (∀ c, cached = some c → chartfile = none → debug = 0 →
      cacheStep chartfile debug cached r = (c, none)) := by
  by_cases hcond : chartfile = none ∧ debug = 0 ∧ cached.isSome = true
  · have hact : cacheAction chartfile debug cached.isSome =
        CacheAction.loadFromCache := by
      rw [cacheAction, if_pos hcond]
    obtain ⟨h1, h2, h3⟩ := hcond
    obtain ⟨c, rfl⟩ := Option.isSome_iff_exists.mp h3
    subst h1
    subst h2
    refine ⟨?_, ?_, ?_⟩
    · rw [hact]
      constructor
      · intro hh
        exact CacheAction.noConfusion hh
      · rintro (h | h | h) <;> simp at h
    · rintro (h | h | h) <;> simp at h
    · intro c2 hc2 _ _
      injection hc2 with hc2
      subst hc2
      rw [cacheStep, hact]
      rfl
  · have hact : cacheAction chartfile debug cached.isSome =
        CacheAction.recomputeAndWrite := by
      rw [cacheAction, if_neg hcond]
    refine ⟨?_, ?_, ?_⟩
    · rw [hact]
      constructor
      · intro _
        by_contra hno
        push_neg at hno
        obtain ⟨hn1, hn2, hn3⟩ := hno
        exact hcond ⟨hn1, hn2, Option.isSome_iff_ne_none.mpr hn3⟩
      · intro _
        rfl
    · intro _
      rw [cacheStep, hact]
    · intro c hc hcf hd
      exact absurd ⟨hcf, hd, by rw [hc]; rfl⟩ hcond

/-- Claim C6 witness: a chart override forces recompute-and-write even with
a cache present; with no override, debug 0 and a cache present, the cached
results are returned with no write. -/
theorem pipeline_c6_witness :
    cacheStep (some "chart.png") 0 (some [("w", [some 1])]) [("w", [some 2])] =
        ([("w", [some 2])], some [("w", [some 2])]) ∧
    cacheStep none 0 (some [("w", [some 1])]) [("w", [some 2])] =
      ([("w", [some 1])], none) := by
  constructor
  · exact (pipeline_c6 (some "chart.png") 0 (some [("w", [some 1])])
      [("w", [some 2])]).2.1 (Or.inl (by simp))
  · exact (pipeline_c6 none 0 (some [("w", [some 1])])
      [("w", [some 2])]).2.2 [("w", [some 1])] rfl rfl rfl

/-- Claim C7 (confirmed): a first run against an absent cache file computes
and caches the results; a second run with identical inputs obtains exactly
the same results, whether it loads the cache (write-then-read is the
identity on the label-to-measurements mapping) or recomputes. -/
theorem pipeline_c7 (chartfile : Option String) (debug : ℤ) (r : Results) :
    (runCache chartfile debug none r).1 = some r ∧
    (runCache chartfile debug ((runCache chartfile debug none r).2) r).1 =
      some r := by
  have hact : cacheAction chartfile debug (Option.isSome (none : Option JValue)) =
      CacheAction.recomputeAndWrite := by
    rw [cacheAction, if_neg]
    rintro ⟨-, -, h3⟩
    exact Bool.noConfusion h3
  have h1 : runCache chartfile debug none r = (some r, some (encodeResults r)) := by
    rw [runCache, hact]
  refine ⟨by rw [h1], ?_⟩
  rw [h1]
  show (runCache chartfile debug (some (encodeResults r)) r).1 = some r
  by_cases hc : chartfile = none ∧ debug = 0
  · have hact2 : cacheAction chartfile debug
        (Option.isSome (some (encodeResults r))) = CacheAction.loadFromCache := by
      rw [cacheAction, if_pos ⟨hc.1, hc.2, rfl⟩]
    rw [runCache, hact2]
    dsimp only
    rw [Option.getD_some, decodeResults_encodeResults]
  · have hact2 : cacheAction chartfile debug
        (Option.isSome (some (encodeResults r))) =
        CacheAction.recomputeAndWrite := by
      rw [cacheAction, if_neg]
      rintro ⟨ha, hb, -⟩
      exact hc ⟨ha, hb⟩
    rw [runCache, hact2]

/-- Claim C8 (confirmed): each model contributes, in the fixed order 50, 75,
90, exactly one line per fraction whose effective-concentration query is
defined (non-NaN), carrying the model's display label, the EC percentage,
the reported concentration and the unit string; and the model-building loop
never builds a model for the Control cocktail, so no line is emitted for
it. -/
theorem pipeline_c8 (m : Model) (dc : DC) :
    ecLines m = ([50, 75, 90] : List ℕ).filterMap (fun ec : ℕ =>
        (m.effectiveConcentration ((ec : ℚ) / 100)).map
          (fun c => ECLine.mk m.condition ec c m.xUnits)) ∧
    (∀ c ∈ modeledCocktails dc, c.drugs ≠ ["Control"]) := by
  constructor
  · simp only [ecLines, ecLinesFrom, List.filterMap_cons, List.filterMap_nil]
    cases h50 : m.effectiveConcentration (((50 : ℕ) : ℚ) / 100) <;>
      cases h75 : m.effectiveConcentration (((75 : ℕ) : ℚ) / 100) <;>
        cases h90 : m.effectiveConcentration (((90 : ℕ) : ℚ) / 100) <;>
          simp [h50, h75, h90]
  · induction dc with
    | nil =>
      intro c hc
      simp [modeledCocktails] at hc
    | cons p rest ih =>
      intro c hc
      rw [modeledCocktails] at hc
      by_cases hp : p.1.drugs = ["Control"]
      · rw [if_pos hp] at hc
        exact ih c hc
      · rw [if_neg hp] at hc
        rcases List.mem_cons.mp hc with h | h
        · rw [h]
          exact hp
        · exact ih c h

/-- Claim C9 (code bug): when a designated control drug's cocktail is itself
the modeled cocktail being processed (a non-Control key with a nonempty
solution list), the prepend loop iterates the very list it is inserting
into at position 0 and never terminates — no amount of fuel completes it. -/
theorem pipeline_c9_diverges :
    ∀ fuel : ℕ,
      buildDoseSeries fuel [(exCB, [Solution.mk "B 1mM"])] [exCB] exCB =
        Except.error PyErr.diverge := by
  intro fuel
  rw [buildDoseSeries, prependControls,
    @insertLoop_self_diverges exCB fuel [(exCB, [Solution.mk "B 1mM"])]
      [Solution.mk "B 1mM"] 0 rfl (by decide)]

/-- Claim C10 (confirmed): with zero combination models, checkerboard mode
raises an `IndexError` at `models_combo[0]` while diamond mode completes
with no figure and no error. -/
theorem pipeline_c10 (models : ModelMap)
    (ad : Model → Model → Model → String × ℚ × ℚ)
    (h : combosOf (models.map Prod.snd) = []) :
    analyzeCombinations true models ad = Except.error PyErr.indexError ∧
    analyzeCombinations false models ad =
      Except.ok (ComboOutcome.diamondFig none) := by
  constructor
  · simp [analyzeCombinations, h, checkerboardMode]
  · simp [analyzeCombinations, h, diamondMode, diamondLoop]

/-- Claim C10 witness: a single non-combination model means zero combos:
checkerboard mode raises, diamond mode completes with no figure. -/
theorem pipeline_c10_witness :
    analyzeCombinations true [(exCA, exMA)] exAD =
        Except.error PyErr.indexError ∧
    analyzeCombinations false [(exCA, exMA)] exAD =
      Except.ok (ComboOutcome.diamondFig none) :=
  pipeline_c10 [(exCA, exMA)] exAD rfl

end Pepita
